import Mathlib

/-!
Verification development for the OCI usage-cost script
(`src/oci_usage_cost.py`).  The Python program queries the OCI usage API
for the current month, reduces the returned line items to totals (overall
and grouped by service), sends webhook notifications, and pings a
health-check URL.  Amounts and quantities are modelled as rationals,
Python dicts as insertion-ordered association lists, and every outbound
HTTP call as an oracle value of type `Except String _` (an exception
message or the HTTP response).
-/

/-- One usage line item as returned by `request_summarized_usages`
(`usage_response.data.items`): the service label used by the grouped
query, and the nullable `computed_amount` / `computed_quantity` fields. -/
structure UsageItem where
  service : String
  computed_amount : Option ℚ
  computed_quantity : Option ℚ
deriving DecidableEq

/-- One iteration of the reduction loop of `get_usage_totals`
(lines 74-78): add `computed_amount` to the running amount when it is not
`None`, and `computed_quantity` to the running quantity when it is not
`None`. -/
def totals_step (acc : ℚ × ℚ) (item : UsageItem) : ℚ × ℚ :=
  (match item.computed_amount with
    | some v => acc.1 + v
    | none => acc.1,
   match item.computed_quantity with
    | some v => acc.2 + v
    | none => acc.2)

/-- The reduction loop of `get_usage_totals` (lines 69-80): both
accumulators start at `0.0` and the loop runs over all items. -/
def usage_totals_loop (items : List UsageItem) : ℚ × ℚ :=
  items.foldl totals_step (0, 0)

/-- A Python dict from service label to a rational accumulator,
as an insertion-ordered association list. -/
abbrev PyDict := List (String × ℚ)

/-- Python `d[k]` as an option: the value at the first (and, in the
dicts built by this program, only) binding of `k`. -/
def dictGet : PyDict → String → Option ℚ
  | [], _ => none
  | (k', v) :: rest, k => if k' = k then some v else dictGet rest k

/-- Python `k in d`. -/
def dictContains (d : PyDict) (k : String) : Bool :=
  (dictGet d k).isSome

/-- Python `d[k] = v`: replace the binding of `k` when present, append a
new binding otherwise. -/
def dictSet : PyDict → String → ℚ → PyDict
  | [], k, v => [(k, v)]
  | (k', v') :: rest, k, v =>
      if k' = k then (k', v) :: rest else (k', v') :: dictSet rest k v

/-- The keys of a dict, in insertion order. -/
def dictKeys (d : PyDict) : List String :=
  d.map Prod.fst

/-- The sum of all values of a dict. -/
def dictSum (d : PyDict) : ℚ :=
  (d.map Prod.snd).sum

/-- Lines 103-106 of `get_usage_totals_by_service`: `if item.service not
in d: d[item.service] = 0.0`. -/
def ensure_key (d : PyDict) (k : String) : PyDict :=
  if dictContains d k then d else dictSet d k 0

/-- Lines 108-111 of `get_usage_totals_by_service`: `if x is not None:
d[item.service] += x` (the key is always present when this runs, so the
`getD` default is never used on the program's code path). -/
def add_opt (d : PyDict) (k : String) : Option ℚ → PyDict
  | some v => dictSet d k ((dictGet d k).getD 0 + v)
  | none => d

/-- One iteration of the reduction loop of `get_usage_totals_by_service`
(lines 102-111): set the item's service key to `0.0` in each dict
when absent, then add the non-null amount and quantity. -/
def by_service_step (st : PyDict × PyDict) (item : UsageItem) : PyDict × PyDict :=
  (add_opt (ensure_key st.1 item.service) item.service item.computed_amount,
   add_opt (ensure_key st.2 item.service) item.service item.computed_quantity)

/-- The reduction loop of `get_usage_totals_by_service` (lines 97-113):
both dicts start empty and the loop runs over all items. -/
def usage_by_service_loop (items : List UsageItem) : PyDict × PyDict :=
  items.foldl by_service_step ([], [])

/-- The sum of the non-null `computed_amount` fields of a list of items. -/
def amountSum (items : List UsageItem) : ℚ :=
  (items.filterMap (fun it => it.computed_amount)).sum

/-- The sum of the non-null `computed_quantity` fields of a list of items. -/
def quantitySum (items : List UsageItem) : ℚ :=
  (items.filterMap (fun it => it.computed_quantity)).sum

theorem amountSum_cons (it : UsageItem) (rest : List UsageItem) :
    amountSum (it :: rest) = it.computed_amount.getD 0 + amountSum rest := by
  unfold amountSum
  cases h : it.computed_amount <;> simp [List.filterMap_cons, h]

theorem quantitySum_cons (it : UsageItem) (rest : List UsageItem) :
    quantitySum (it :: rest) = it.computed_quantity.getD 0 + quantitySum rest := by
  unfold quantitySum
  cases h : it.computed_quantity <;> simp [List.filterMap_cons, h]

theorem totals_loop_from (items : List UsageItem) (a q : ℚ) :
    items.foldl totals_step (a, q) = (a + amountSum items, q + quantitySum items) := by
  induction items generalizing a q with
  | nil => simp [amountSum, quantitySum]
  | cons it rest ih =>
      rw [List.foldl_cons, amountSum_cons, quantitySum_cons]
      have hstep : totals_step (a, q) it =
          (a + it.computed_amount.getD 0, q + it.computed_quantity.getD 0) := by
        unfold totals_step
        cases ha : it.computed_amount <;> cases hq : it.computed_quantity <;> simp [ha, hq]
      rw [hstep, ih]
      rw [Prod.ext_iff]
      constructor <;> · simp; ring

theorem usage_totals_loop_eq (items : List UsageItem) :
    usage_totals_loop items = (amountSum items, quantitySum items) := by
  unfold usage_totals_loop
  rw [totals_loop_from]
  simp

theorem dictGet_set_self (d : PyDict) (k : String) (v : ℚ) :
    dictGet (dictSet d k v) k = some v := by
  induction d with
  | nil => simp [dictSet, dictGet]
  | cons p rest ih =>
      by_cases h : p.1 = k <;> simp [dictSet, dictGet, h, ih]

theorem dictGet_set_other (d : PyDict) (k' k : String) (v : ℚ) (h : k' ≠ k) :
    dictGet (dictSet d k' v) k = dictGet d k := by
  induction d with
  | nil => simp [dictSet, dictGet, h]
  | cons p rest ih =>
      by_cases hp : p.1 = k' <;> simp [dictSet, dictGet, hp, ih]
      subst hp
      simp [h]

theorem dictContains_set_self (d : PyDict) (k : String) (v : ℚ) :
    dictContains (dictSet d k v) k = true := by
  simp [dictContains, dictGet_set_self]

theorem dictKeys_set_present (d : PyDict) (k : String) (v : ℚ)
    (h : dictContains d k = true) : dictKeys (dictSet d k v) = dictKeys d := by
  induction d with
  | nil => simp [dictContains, dictGet] at h
  | cons p rest ih =>
      by_cases hp : p.1 = k
      · simp [dictSet, dictKeys, hp]
      · simp [dictContains, dictGet, hp] at h
        simp [dictSet, dictKeys, hp]
        exact ih (by simpa [dictContains] using h)

theorem dictKeys_set_absent (d : PyDict) (k : String) (v : ℚ)
    (h : dictContains d k = false) : dictKeys (dictSet d k v) = dictKeys d ++ [k] := by
  induction d with
  | nil => simp [dictSet, dictKeys]
  | cons p rest ih =>
      by_cases hp : p.1 = k
      · simp [dictContains, dictGet, hp] at h
      · simp [dictContains, dictGet, hp] at h
        simp [dictSet, dictKeys, hp]
        exact ih (by simpa [dictContains] using h)

theorem dictContains_iff_mem_keys (d : PyDict) (k : String) :
    dictContains d k = true ↔ k ∈ dictKeys d := by
  induction d with
  | nil => simp [dictContains, dictGet, dictKeys]
  | cons p rest ih =>
      by_cases hp : p.1 = k
      · simp [dictContains, dictGet, dictKeys, hp]
      · have h1 : dictContains (p :: rest) k = dictContains rest k := by
          simp [dictContains, dictGet, hp]
        have h2 : dictKeys (p :: rest) = p.1 :: dictKeys rest := rfl
        rw [h1, h2, ih, List.mem_cons]
        constructor
        · exact Or.inr
        · rintro (h | h)
          · exact absurd h.symm hp
          · exact h

theorem dictSum_set_absent (d : PyDict) (k : String) (v : ℚ)
    (h : dictContains d k = false) : dictSum (dictSet d k v) = dictSum d + v := by
  induction d with
  | nil => simp [dictSet, dictSum]
  | cons p rest ih =>
      by_cases hp : p.1 = k
      · simp [dictContains, dictGet, hp] at h
      · simp [dictContains, dictGet, hp] at h
        have := ih (by simpa [dictContains] using h)
        simp [dictSet, dictSum, hp] at this ⊢
        rw [this]
        ring

theorem dictSum_bump (d : PyDict) (k : String) (v : ℚ)
    (h : dictContains d k = true) :
    dictSum (dictSet d k ((dictGet d k).getD 0 + v)) = dictSum d + v := by
  induction d with
  | nil => simp [dictContains, dictGet] at h
  | cons p rest ih =>
      by_cases hp : p.1 = k
      · simp [dictSet, dictGet, dictSum, hp]
        ring
      · simp [dictContains, dictGet, hp] at h
        have := ih (by simpa [dictContains] using h)
        simp [dictSet, dictGet, dictSum, hp] at this ⊢
        rw [this]
        ring

theorem ensure_key_sum (d : PyDict) (k : String) :
    dictSum (ensure_key d k) = dictSum d := by
  unfold ensure_key
  by_cases h : dictContains d k = true
  · simp [h]
  · simp at h
    simp [h, dictSum_set_absent d k 0 h]

theorem ensure_key_contains (d : PyDict) (k : String) :
    dictContains (ensure_key d k) k = true := by
  unfold ensure_key
  by_cases h : dictContains d k = true
  · simp [h]
  · simp at h
    simp [h, dictContains_set_self]

theorem ensure_key_keys (d : PyDict) (k : String) :
    dictKeys (ensure_key d k) =
      if dictContains d k then dictKeys d else dictKeys d ++ [k] := by
  unfold ensure_key
  by_cases h : dictContains d k = true
  · simp [h]
  · simp at h
    simp [h, dictKeys_set_absent d k 0 h]

theorem ensure_key_get_self (d : PyDict) (k : String) :
    dictGet (ensure_key d k) k = some ((dictGet d k).getD 0) := by
  unfold ensure_key
  by_cases h : dictContains d k = true
  · rcases Option.isSome_iff_exists.mp (by simpa [dictContains] using h) with ⟨w, hw⟩
    simp [h, hw]
  · simp at h
    have : dictGet d k = none := by
      simpa [dictContains, Option.isSome_iff_exists] using h
    simp [h, this, dictGet_set_self]

theorem ensure_key_get_other (d : PyDict) (k' k : String) (h : k' ≠ k) :
    dictGet (ensure_key d k') k = dictGet d k := by
  unfold ensure_key
  by_cases hc : dictContains d k' = true
  · simp [hc]
  · simp at hc
    simp [hc, dictGet_set_other d k' k 0 h]

theorem add_opt_sum (d : PyDict) (k : String) (o : Option ℚ)
    (h : dictContains d k = true) :
    dictSum (add_opt d k o) = dictSum d + o.getD 0 := by
  cases o with
  | none => simp [add_opt]
  | some v => simpa [add_opt] using dictSum_bump d k v h

theorem add_opt_keys (d : PyDict) (k : String) (o : Option ℚ)
    (h : dictContains d k = true) :
    dictKeys (add_opt d k o) = dictKeys d := by
  cases o with
  | none => simp [add_opt]
  | some v => simp [add_opt, dictKeys_set_present _ _ _ h]

theorem add_opt_get_self (d : PyDict) (k : String) (o : Option ℚ)
    (h : dictContains d k = true) :
    dictGet (add_opt d k o) k = some ((dictGet d k).getD 0 + o.getD 0) := by
  cases o with
  | none =>
      rcases Option.isSome_iff_exists.mp (by simpa [dictContains] using h) with ⟨w, hw⟩
      simp [add_opt, hw]
  | some v => simp [add_opt, dictGet_set_self]

theorem add_opt_get_other (d : PyDict) (k' k : String) (o : Option ℚ) (h : k' ≠ k) :
    dictGet (add_opt d k' o) k = dictGet d k := by
  cases o with
  | none => simp [add_opt]
  | some v => simp [add_opt, dictGet_set_other d k' k _ h]

theorem step_sum_fst (st : PyDict × PyDict) (it : UsageItem) :
    dictSum (by_service_step st it).1 = dictSum st.1 + it.computed_amount.getD 0 := by
  unfold by_service_step
  rw [add_opt_sum _ _ _ (ensure_key_contains _ _), ensure_key_sum]

theorem step_sum_snd (st : PyDict × PyDict) (it : UsageItem) :
    dictSum (by_service_step st it).2 = dictSum st.2 + it.computed_quantity.getD 0 := by
  unfold by_service_step
  rw [add_opt_sum _ _ _ (ensure_key_contains _ _), ensure_key_sum]

theorem step_keys_fst (st : PyDict × PyDict) (it : UsageItem) :
    dictKeys (by_service_step st it).1 =
      if dictContains st.1 it.service then dictKeys st.1
      else dictKeys st.1 ++ [it.service] := by
  unfold by_service_step
  rw [add_opt_keys _ _ _ (ensure_key_contains _ _), ensure_key_keys]

theorem step_keys_snd (st : PyDict × PyDict) (it : UsageItem) :
    dictKeys (by_service_step st it).2 =
      if dictContains st.2 it.service then dictKeys st.2
      else dictKeys st.2 ++ [it.service] := by
  unfold by_service_step
  rw [add_opt_keys _ _ _ (ensure_key_contains _ _), ensure_key_keys]

theorem loop_sum_fst (items : List UsageItem) (st : PyDict × PyDict) :
    dictSum (items.foldl by_service_step st).1 = dictSum st.1 + amountSum items := by
  induction items generalizing st with
  | nil => simp [amountSum]
  | cons it rest ih =>
      rw [List.foldl_cons, ih, step_sum_fst, amountSum_cons]
      ring

theorem loop_sum_snd (items : List UsageItem) (st : PyDict × PyDict) :
    dictSum (items.foldl by_service_step st).2 = dictSum st.2 + quantitySum items := by
  induction items generalizing st with
  | nil => simp [quantitySum]
  | cons it rest ih =>
      rw [List.foldl_cons, ih, step_sum_snd, quantitySum_cons]
      ring

theorem loop_mem_keys_fst (items : List UsageItem) (st : PyDict × PyDict) (k : String) :
    k ∈ dictKeys (items.foldl by_service_step st).1 ↔
      k ∈ dictKeys st.1 ∨ k ∈ items.map (fun it => it.service) := by
  induction items generalizing st with
  | nil => simp
  | cons it rest ih =>
      rw [List.foldl_cons, ih, step_keys_fst, List.map_cons]
      by_cases hc : dictContains st.1 it.service = true
      · have hm := (dictContains_iff_mem_keys st.1 it.service).mp hc
        rw [if_pos hc]
        constructor
        · rintro (h1 | h1)
          · exact Or.inl h1
          · exact Or.inr (List.mem_cons.mpr (Or.inr h1))
        · rintro (h1 | h1)
          · exact Or.inl h1
          · rcases List.mem_cons.mp h1 with rfl | h2
            · exact Or.inl hm
            · exact Or.inr h2
      · rw [if_neg hc]
        rw [List.mem_append, List.mem_singleton, List.mem_cons]
        tauto

theorem loop_mem_keys_snd (items : List UsageItem) (st : PyDict × PyDict) (k : String) :
    k ∈ dictKeys (items.foldl by_service_step st).2 ↔
      k ∈ dictKeys st.2 ∨ k ∈ items.map (fun it => it.service) := by
  induction items generalizing st with
  | nil => simp
  | cons it rest ih =>
      rw [List.foldl_cons, ih, step_keys_snd, List.map_cons]
      by_cases hc : dictContains st.2 it.service = true
      · have hm := (dictContains_iff_mem_keys st.2 it.service).mp hc
        rw [if_pos hc]
        constructor
        · rintro (h1 | h1)
          · exact Or.inl h1
          · exact Or.inr (List.mem_cons.mpr (Or.inr h1))
        · rintro (h1 | h1)
          · exact Or.inl h1
          · rcases List.mem_cons.mp h1 with rfl | h2
            · exact Or.inl hm
            · exact Or.inr h2
      · rw [if_neg hc]
        rw [List.mem_append, List.mem_singleton, List.mem_cons]
        tauto

theorem loop_nodup_fst (items : List UsageItem) (st : PyDict × PyDict)
    (h : (dictKeys st.1).Nodup) :
    (dictKeys (items.foldl by_service_step st).1).Nodup := by
  induction items generalizing st with
  | nil => exact h
  | cons it rest ih =>
      rw [List.foldl_cons]
      apply ih
      rw [step_keys_fst]
      by_cases hc : dictContains st.1 it.service = true
      · rw [if_pos hc]; exact h
      · rw [if_neg hc]
        have hnm : it.service ∉ dictKeys st.1 := fun hm =>
          hc ((dictContains_iff_mem_keys _ _).mpr hm)
        simp [List.nodup_append, h, hnm]

theorem loop_nodup_snd (items : List UsageItem) (st : PyDict × PyDict)
    (h : (dictKeys st.2).Nodup) :
    (dictKeys (items.foldl by_service_step st).2).Nodup := by
  induction items generalizing st with
  | nil => exact h
  | cons it rest ih =>
      rw [List.foldl_cons]
      apply ih
      rw [step_keys_snd]
      by_cases hc : dictContains st.2 it.service = true
      · rw [if_pos hc]; exact h
      · rw [if_neg hc]
        have hnm : it.service ∉ dictKeys st.2 := fun hm =>
          hc ((dictContains_iff_mem_keys _ _).mpr hm)
        simp [List.nodup_append, h, hnm]

theorem loop_keys_fst_eq_snd (items : List UsageItem) (st : PyDict × PyDict)
    (h : dictKeys st.1 = dictKeys st.2) :
    dictKeys (items.foldl by_service_step st).1 =
      dictKeys (items.foldl by_service_step st).2 := by
  induction items generalizing st with
  | nil => exact h
  | cons it rest ih =>
      rw [List.foldl_cons]
      apply ih
      rw [step_keys_fst, step_keys_snd]
      have hc : dictContains st.1 it.service = dictContains st.2 it.service := by
        rw [Bool.eq_iff_iff, dictContains_iff_mem_keys, dictContains_iff_mem_keys, h]
      rw [hc, h]

/-- The sum of the non-null amounts of the items whose `service` is `k`. -/
def serviceAmountSum (items : List UsageItem) (k : String) : ℚ :=
  amountSum (items.filter (fun it => decide (it.service = k)))

/-- The sum of the non-null quantities of the items whose `service` is `k`. -/
def serviceQuantitySum (items : List UsageItem) (k : String) : ℚ :=
  quantitySum (items.filter (fun it => decide (it.service = k)))

theorem step_get_self_fst (st : PyDict × PyDict) (it : UsageItem) :
    dictGet (by_service_step st it).1 it.service =
      some ((dictGet st.1 it.service).getD 0 + it.computed_amount.getD 0) := by
  unfold by_service_step
  rw [add_opt_get_self _ _ _ (ensure_key_contains _ _), ensure_key_get_self]
  simp

theorem step_get_self_snd (st : PyDict × PyDict) (it : UsageItem) :
    dictGet (by_service_step st it).2 it.service =
      some ((dictGet st.2 it.service).getD 0 + it.computed_quantity.getD 0) := by
  unfold by_service_step
  rw [add_opt_get_self _ _ _ (ensure_key_contains _ _), ensure_key_get_self]
  simp

theorem step_get_other_fst (st : PyDict × PyDict) (it : UsageItem) (k : String)
    (h : it.service ≠ k) :
    dictGet (by_service_step st it).1 k = dictGet st.1 k := by
  unfold by_service_step
  rw [add_opt_get_other _ _ _ _ h, ensure_key_get_other _ _ _ h]

theorem step_get_other_snd (st : PyDict × PyDict) (it : UsageItem) (k : String)
    (h : it.service ≠ k) :
    dictGet (by_service_step st it).2 k = dictGet st.2 k := by
  unfold by_service_step
  rw [add_opt_get_other _ _ _ _ h, ensure_key_get_other _ _ _ h]

theorem loop_get_fst (items : List UsageItem) (st : PyDict × PyDict) (k : String) :
    dictGet (items.foldl by_service_step st).1 k =
      match dictGet st.1 k with
      | some w => some (w + serviceAmountSum items k)
      | none =>
          if k ∈ items.map (fun it => it.service) then some (serviceAmountSum items k)
          else none := by
  induction items generalizing st with
  | nil =>
      cases h : dictGet st.1 k <;> simp [h, serviceAmountSum, amountSum]
  | cons it rest ih =>
      rw [List.foldl_cons, ih]
      by_cases hs : it.service = k
      · subst hs
        rw [step_get_self_fst]
        have hsum : serviceAmountSum (it :: rest) it.service =
            it.computed_amount.getD 0 + serviceAmountSum rest it.service := by
          unfold serviceAmountSum
          rw [List.filter_cons]
          simp [amountSum_cons]
        cases h0 : dictGet st.1 it.service with
        | some w => simp [h0, hsum]; ring
        | none => simp [h0, hsum]
      · rw [step_get_other_fst _ _ _ hs]
        have hsum : serviceAmountSum (it :: rest) k = serviceAmountSum rest k := by
          unfold serviceAmountSum
          rw [List.filter_cons]
          simp [hs]
        have hs' : ¬ k = it.service := fun h => hs h.symm
        cases h0 : dictGet st.1 k <;> simp [h0, hsum, hs']

theorem loop_get_snd (items : List UsageItem) (st : PyDict × PyDict) (k : String) :
    dictGet (items.foldl by_service_step st).2 k =
      match dictGet st.2 k with
      | some w => some (w + serviceQuantitySum items k)
      | none =>
          if k ∈ items.map (fun it => it.service) then some (serviceQuantitySum items k)
          else none := by
  induction items generalizing st with
  | nil =>
      cases h : dictGet st.2 k <;> simp [h, serviceQuantitySum, quantitySum]
  | cons it rest ih =>
      rw [List.foldl_cons, ih]
      by_cases hs : it.service = k
      · subst hs
        rw [step_get_self_snd]
        have hsum : serviceQuantitySum (it :: rest) it.service =
            it.computed_quantity.getD 0 + serviceQuantitySum rest it.service := by
          unfold serviceQuantitySum
          rw [List.filter_cons]
          simp [quantitySum_cons]
        cases h0 : dictGet st.2 it.service with
        | some w => simp [h0, hsum]; ring
        | none => simp [h0, hsum]
      · rw [step_get_other_snd _ _ _ hs]
        have hsum : serviceQuantitySum (it :: rest) k = serviceQuantitySum rest k := by
          unfold serviceQuantitySum
          rw [List.filter_cons]
          simp [hs]
        have hs' : ¬ k = it.service := fun h => hs h.symm
        cases h0 : dictGet st.2 k <;> simp [h0, hsum, hs']

theorem by_service_get_amount (items : List UsageItem) (k : String)
    (h : k ∈ items.map (fun it => it.service)) :
    dictGet (usage_by_service_loop items).1 k = some (serviceAmountSum items k) := by
  unfold usage_by_service_loop
  rw [loop_get_fst]
  simp [dictGet, h]

theorem by_service_get_quantity (items : List UsageItem) (k : String)
    (h : k ∈ items.map (fun it => it.service)) :
    dictGet (usage_by_service_loop items).2 k = some (serviceQuantitySum items k) := by
  unfold usage_by_service_loop
  rw [loop_get_snd]
  simp [dictGet, h]

/-- Two-digit zero-padded decimal rendering of a natural number below 100. -/
def twoDigits (n : Nat) : String :=
  (if n < 10 then "0" else "") ++ toString n

/-- Round the fraction `n / d` (with `0 < d`) to the nearest integer,
ties to the even integer; this is the rounding Python's fixed-point float
formatting uses. -/
def roundHalfEven (n : ℤ) (d : ℕ) : ℤ :=
  let f := Int.fdiv n d
  let r := n - f * d
  if 2 * r < d then f
  else if (d : ℤ) < 2 * r then f + 1
  else if f % 2 = 0 then f else f + 1

/-- Python `format(x, ".2f")` applied to the rational value of `x` (the
`{total_computed_amount:.2f}` interpolation of line 163): the value
`q = q.num / q.den` rounded half-to-even to two decimal places (the
nearest integer number of hundredths), rendered with exactly two
fractional digits. -/
def pyFormatFixed2 (q : ℚ) : String :=
  let n := roundHalfEven (100 * q.num) q.den
  (if n < 0 then "-" else "") ++ toString (n.natAbs / 100) ++ "." ++ twoDigits (n.natAbs % 100)

/-- Decimal digits of the fraction `r / d` (with `r < d`), most
significant first, stopping after `fuel` digits or when the remainder
reaches zero. -/
def fracDigits : Nat → Nat → Nat → String
  | 0, _, _ => ""
  | fuel + 1, r, d =>
      if r = 0 then ""
      else toString (r * 10 / d) ++ fracDigits fuel (r * 10 % d) d

/-- Python f-string interpolation of the float `THRESHOLD` (line 163's
`{THRESHOLD}`), modelled for floats whose value is a short decimal: sign,
integer part, a dot, and the fractional digits of `|q|` (at least one
digit, `0` when the value is integral).  Python prints the shortest
round-tripping decimal of the float, which for such values is exactly
this string; 17 digits always suffice for a float. -/
def pyStrFloat (q : ℚ) : String :=
  (if q.num < 0 then "-" else "") ++ toString (q.num.natAbs / q.den) ++ "." ++
    (if fracDigits 17 (q.num.natAbs % q.den) q.den = "" then "0"
     else fracDigits 17 (q.num.natAbs % q.den) q.den)

/-- The f-string of line 163: `ATTENTION! OCI costs of {total:.2f} USD
exceeds {THRESHOLD} USD!`. -/
def alert_message (threshold total : ℚ) : String :=
  "ATTENTION! OCI costs of " ++ pyFormatFixed2 total ++ " USD exceeds " ++
    pyStrFloat threshold ++ " USD!"

/-- The string `needle` occurs as a contiguous substring of `hay`. -/
def containsSub (needle hay : String) : Prop :=
  ∃ l r, hay.data = l ++ needle.data ++ r

/-- Status field of a notification outcome dict: the HTTP status code on
success, or the literal `"Failed"` stored by the exception handlers. -/
inductive NotifStatus where
  | code (n : Nat)
  | failed
deriving DecidableEq

/-- The dict returned by the two send functions:
`{"ok": ..., "status": ...}`. -/
structure NotifOutcome where
  ok : Bool
  status : NotifStatus
deriving DecidableEq

/-- Python `response.raise_for_status()` raises exactly for status codes
in 400-599. -/
def raise_for_status (code : Nat) : Bool :=
  decide (400 ≤ code ∧ code < 600)

/-- The behaviour of one outbound HTTP call: an exception message, or the
response's status code. -/
abbrev HttpCall := Except String Nat

/-- Lines 116-129, `send_discord_notification`: POST the message to the
Discord webhook inside `try`; `raise_for_status` turns 4xx/5xx into an
exception; every exception is caught and converted into
`{"ok": False, "status": "Failed"}`.  The function is total: it never
propagates an error. -/
def send_discord_notification (post : HttpCall) : NotifOutcome :=
  match post with
  | .ok code => if raise_for_status code then ⟨false, .failed⟩ else ⟨true, .code code⟩
  | .error _ => ⟨false, .failed⟩

/-- Lines 132-158, `send_n8n_notification`: POST the payload to the n8n
webhook inside `try`, with the same catch-all conversion to
`{"ok": False, "status": "Failed"}`.  The function is total: it never
propagates an error. -/
def send_n8n_notification (post : HttpCall) : NotifOutcome :=
  match post with
  | .ok code => if raise_for_status code then ⟨false, .failed⟩ else ⟨true, .code code⟩
  | .error _ => ⟨false, .failed⟩

/-- The observable actions of one run of `main` after the usage queries:
log events and outbound HTTP attempts. -/
inductive Event where
  | usage_totals_logged
  | service_usage_logged (service : String)
  | n8n_attempted
  | n8n_sent
  | n8n_failed
  | discord_attempted (message : String)
  | discord_sent
  | discord_failed
  | threshold_not_exceeded_logged
  | heartbeat_attempted
  | heartbeat_success
  | heartbeat_failed
deriving DecidableEq

/-- Trace of the unconditional n8n call of line 226: the POST is
attempted, then either the success log of line 148 or the error log of
line 155 is emitted. -/
def n8n_events (r : NotifOutcome) : List Event :=
  if r.ok then [.n8n_attempted, .n8n_sent] else [.n8n_attempted, .n8n_failed]

/-- Lines 161-185, `send_discord_if_threshold_exceeded`: when the total
strictly exceeds the threshold, build the alert message, send it to
Discord, and return whether that send reported ok; otherwise do nothing
and return `False`.  The trace records the Discord attempt (with its
message) and the sent/failed log event. -/
def send_discord_if_threshold_exceeded (threshold total : ℚ)
    (post : HttpCall) : Bool × List Event :=
  if total > threshold then
    if ( send_discord_notification post).ok then
      (true, [.discord_attempted (alert_message threshold total), .discord_sent])
    else
      (false, [.discord_attempted (alert_message threshold total), .discord_failed])
  else (false, [])

/-- The environment one run of `main` interacts with: the two usage API
queries and the three outbound HTTP calls, each an exception message or a
result. -/
structure Oracles where
  query_totals : Except String (List UsageItem)
  query_by_service : Except String (List UsageItem)
  n8n_post : HttpCall
  discord_post : HttpCall
  healthcheck_get : HttpCall

/-- Lines 56-80, `get_usage_totals`: issue the ungrouped usage query (a
transport or API error propagates uncaught) and reduce the returned items
with the accumulation loop. -/
def get_usage_totals (query : Except String (List UsageItem)) :
    Except String (ℚ × ℚ) :=
  match query with
  | .error e => .error e
  | .ok items => .ok (usage_totals_loop items)

/-- Lines 83-113, `get_usage_totals_by_service`: issue the grouped usage
query (a transport or API error propagates uncaught) and reduce the
returned items into the two per-service dicts. -/
def get_usage_totals_by_service (query : Except String (List UsageItem)) :
    Except String (PyDict × PyDict) :=
  match query with
  | .error e => .error e
  | .ok items => .ok (usage_by_service_loop items)

/-- Lines 188-240, `main`: query the totals, query the by-service totals,
log the summary and one line per service, always send the n8n
notification, send the Discord alert only via
`send_discord_if_threshold_exceeded` (logging `threshold_not_exceeded`
when that call returns `False`), and finally ping the health-check URL
inside its own `try`/`except`.  An exception from either usage query
propagates out as the `Except.error` branch, producing no trace at all. -/
def main_run (threshold : ℚ) (o : Oracles) : Except String (List Event) :=
  match get_usage_totals o.query_totals with
  | .error e => .error e
  | .ok totals =>
    match get_usage_totals_by_service o.query_by_service with
    | .error e => .error e
    | .ok dicts =>
        let disc := send_discord_if_threshold_exceeded threshold totals.1 o.discord_post
        .ok ((Event.usage_totals_logged ::
              (dictKeys dicts.1).map Event.service_usage_logged) ++
          n8n_events ( send_n8n_notification o.n8n_post) ++
          disc.2 ++
          (if disc.1 then [] else [Event.threshold_not_exceeded_logged]) ++
          (match o.healthcheck_get with
           | .ok _ => [Event.heartbeat_attempted, Event.heartbeat_success]
           | .error _ => [Event.heartbeat_attempted, Event.heartbeat_failed]))

/-- A Python `datetime.date`: proleptic Gregorian year, month, day. -/
structure PyDate where
  year : Nat
  month : Nat
  day : Nat
deriving DecidableEq

/-- Gregorian leap-year rule, as `calendar.isleap` / `datetime` use it. -/
def isLeap (y : Nat) : Bool :=
  y % 4 == 0 && (y % 100 != 0 || y % 400 == 0)

/-- Number of days of a Gregorian month. -/
def daysInMonth (y m : Nat) : Nat :=
  if m = 2 then (if isLeap y then 29 else 28)
  else if m = 4 ∨ m = 6 ∨ m = 9 ∨ m = 11 then 30
  else 31

/-- A well-formed `datetime.date` value. -/
def ValidDate (d : PyDate) : Prop :=
  1 ≤ d.month ∧ d.month ≤ 12 ∧ 1 ≤ d.day ∧ d.day ≤ daysInMonth d.year d.month

instance (d : PyDate) : Decidable (ValidDate d) := by
  unfold ValidDate
  infer_instance

/-- Python `today + datetime.timedelta(days=1)` (line 53): the calendar
successor, rolling over month and year ends. -/
def nextDay (d : PyDate) : PyDate :=
  if d.day < daysInMonth d.year d.month then ⟨d.year, d.month, d.day + 1⟩
  else if d.month < 12 then ⟨d.year, d.month + 1, 1⟩
  else ⟨d.year + 1, 1, 1⟩

/-- Line 52: `datetime.date(today.year, today.month, 1)`, the first day
of the current month. -/
def start_date (today : PyDate) : PyDate :=
  ⟨today.year, today.month, 1⟩

/-- Line 53: `today + datetime.timedelta(days=1)`, tomorrow; the query
range end is exclusive. -/
def end_date (today : PyDate) : PyDate :=
  nextDay today

/-- Strict lexicographic order on dates (year, month, day). -/
def dateLtb (a b : PyDate) : Bool :=
  decide (a.year < b.year ∨ (a.year = b.year ∧
    (a.month < b.month ∨ (a.month = b.month ∧ a.day < b.day))))

/-- Non-strict lexicographic order on dates. -/
def dateLeb (a b : PyDate) : Bool :=
  dateLtb a b || decide (a = b)

/-- Line 60/87's `strftime("%Y-%m-%dT%H:%M:%S.000Z")` on a `date` (whose
time-of-day fields render as zero). -/
def dateStamp (d : PyDate) : String :=
  toString d.year ++ "-" ++ twoDigits d.month ++ "-" ++ twoDigits d.day ++
    "T00:00:00.000Z"

/-- The `RequestSummarizedUsagesDetails` value built by the two query
functions (lines 58-64 and 85-92). -/
structure UsageRequest where
  tenant_id : String
  time_usage_started : String
  time_usage_ended : String
  granularity : String
  query_type : String
  group_by : Option (List String)
deriving DecidableEq

/-- The request of `get_usage_totals` (ungrouped) or
`get_usage_totals_by_service` (grouped by service), as a function of the
tenant and of the wall-clock date `today` read at the start of the
invocation. -/
def buildUsageRequest (tenant : String) (today : PyDate) (grouped : Bool) :
    UsageRequest :=
  { tenant_id := tenant
    time_usage_started := dateStamp (start_date today)
    time_usage_ended := dateStamp (end_date today)
    granularity := "DAILY"
    query_type := "COST"
    group_by := if grouped then some ["service"] else none }

/-- Recognizer for the Discord POST attempt in a trace. -/
def is_discord_attempt : Event → Bool
  | .discord_attempted _ => true
  | _ => false

theorem serviceAmountSum_all_none (items : List UsageItem) (k : String)
    (h : ∀ it ∈ items, it.service = k → it.computed_amount = none) :
    serviceAmountSum items k = 0 := by
  unfold serviceAmountSum amountSum
  have hnil : (items.filter (fun it => decide (it.service = k))).filterMap
      (fun it => it.computed_amount) = [] := by
    rw [List.filterMap_eq_nil_iff]
    intro it hit
    have hm := List.mem_filter.mp hit
    exact h it hm.1 (by simpa using hm.2)
  rw [hnil]
  simp

theorem serviceQuantitySum_all_none (items : List UsageItem) (k : String)
    (h : ∀ it ∈ items, it.service = k → it.computed_quantity = none) :
    serviceQuantitySum items k = 0 := by
  unfold serviceQuantitySum quantitySum
  have hnil : (items.filter (fun it => decide (it.service = k))).filterMap
      (fun it => it.computed_quantity) = [] := by
    rw [List.filterMap_eq_nil_iff]
    intro it hit
    have hm := List.mem_filter.mp hit
    exact h it hm.1 (by simpa using hm.2)
  rw [hnil]
  simp

theorem main_run_ok (threshold : ℚ) (o : Oracles) (items1 items2 : List UsageItem)
    (h1 : o.query_totals = .ok items1) (h2 : o.query_by_service = .ok items2) :
    main_run threshold o = .ok (
      (Event.usage_totals_logged ::
        (dictKeys (usage_by_service_loop items2).1).map Event.service_usage_logged) ++
      n8n_events ( send_n8n_notification o.n8n_post) ++
      ( send_discord_if_threshold_exceeded threshold (usage_totals_loop items1).1
        o.discord_post).2 ++
      (if ( send_discord_if_threshold_exceeded threshold (usage_totals_loop items1).1
          o.discord_post).1 then []
       else [Event.threshold_not_exceeded_logged]) ++
      (match o.healthcheck_get with
       | .ok _ => [Event.heartbeat_attempted, Event.heartbeat_success]
       | .error _ => [Event.heartbeat_attempted, Event.heartbeat_failed])) := by
  simp only [main_run, get_usage_totals, get_usage_totals_by_service, h1, h2]

theorem n8n_attempted_mem (r : NotifOutcome) : Event.n8n_attempted ∈ n8n_events r := by
  unfold n8n_events
  cases r.ok <;> simp

theorem thresh_log_not_in_n8n (r : NotifOutcome) :
    Event.threshold_not_exceeded_logged ∉ n8n_events r := by
  unfold n8n_events
  cases r.ok <;> simp

theorem thresh_log_not_in_disc (threshold total : ℚ) (post : HttpCall) :
    Event.threshold_not_exceeded_logged ∉
      ( send_discord_if_threshold_exceeded threshold total post).2 := by
  unfold send_discord_if_threshold_exceeded
  by_cases h : total > threshold
  · cases hok : ( send_discord_notification post).ok <;> simp [h, hok]
  · simp [h]

theorem daysInMonth_pos (y m : Nat) : 1 ≤ daysInMonth y m := by
  unfold daysInMonth
  split
  · split <;> omega
  · split <;> omega

/-- C1: the reduction loop of `get_usage_totals` returns a total amount
equal to the sum of the non-null `computed_amount` fields and a total
quantity equal to the sum of the non-null `computed_quantity` fields,
skipping `None` fields; in particular the empty list yields
`(0.0, 0.0)`. -/
theorem c1_totals_loop_sums :
    (∀ items : List UsageItem,
      usage_totals_loop items = (amountSum items, quantitySum items)) ∧
    usage_totals_loop [] = (0, 0) := by
  refine ⟨usage_totals_loop_eq, ?_⟩
  simp [usage_totals_loop]

/-- C2: for every item list, summing the per-service amount buckets of
the by-service reduction loop over all services equals the total amount
of the overall reduction loop on the same list, and likewise for
quantities. -/
theorem c2_by_service_consistent (items : List UsageItem) :
    dictSum (usage_by_service_loop items).1 = (usage_totals_loop items).1 ∧
    dictSum (usage_by_service_loop items).2 = (usage_totals_loop items).2 := by
  rw [usage_totals_loop_eq]
  unfold usage_by_service_loop
  rw [loop_sum_fst, loop_sum_snd]
  simp [dictSum]

/-- C6: the by-service reduction loop maps every service label appearing
in the items to exactly one key of each dict (no other keys, no
duplicates, same keys in both dicts), accumulates each key's sums
independently per label (a key's value is the sum of the non-null fields
of exactly the items carrying that label, starting from the `0.0`
starting value), a label all of whose items are null still maps to
`(0.0, 0.0)`, and the empty list yields empty dicts. -/
theorem c6_by_service_invariants (items : List UsageItem) :
    (dictKeys (usage_by_service_loop items).1).Nodup ∧
    (dictKeys (usage_by_service_loop items).2).Nodup ∧
    dictKeys (usage_by_service_loop items).1 =
      dictKeys (usage_by_service_loop items).2 ∧
    (∀ k, k ∈ dictKeys (usage_by_service_loop items).1 ↔
      k ∈ items.map (fun it => it.service)) ∧
    (∀ k, k ∈ items.map (fun it => it.service) →
      dictGet (usage_by_service_loop items).1 k = some (serviceAmountSum items k) ∧
      dictGet (usage_by_service_loop items).2 k = some (serviceQuantitySum items k)) ∧
    (∀ k, k ∈ items.map (fun it => it.service) →
      (∀ it ∈ items, it.service = k → it.computed_amount = none) →
      (∀ it ∈ items, it.service = k → it.computed_quantity = none) →
      dictGet (usage_by_service_loop items).1 k = some 0 ∧
      dictGet (usage_by_service_loop items).2 k = some 0) ∧
    usage_by_service_loop [] = ([], []) := by
  refine ⟨?_, ?_, ?_, ?_, ?_, ?_, rfl⟩
  · exact loop_nodup_fst items ([], []) (by simp [dictKeys])
  · exact loop_nodup_snd items ([], []) (by simp [dictKeys])
  · exact loop_keys_fst_eq_snd items ([], []) rfl
  · intro k
    unfold usage_by_service_loop
    rw [loop_mem_keys_fst]
    simp [dictKeys]
  · intro k hk
    exact ⟨by_service_get_amount items k hk, by_service_get_quantity items k hk⟩
  · intro k hk ha hq
    refine ⟨?_, ?_⟩
    · rw [by_service_get_amount items k hk, serviceAmountSum_all_none items k ha]
    · rw [by_service_get_quantity items k hk, serviceQuantitySum_all_none items k hq]

/-- Witness for C6 at a concrete list: the label `"A"` occurs with only
null fields and still maps to `(0.0, 0.0)` in both dicts. -/
theorem c6_by_service_invariants_witness :
    ("A" ∈ ([⟨"A", none, none⟩] : List UsageItem).map (fun it => it.service) ∧
      (∀ it ∈ ([⟨"A", none, none⟩] : List UsageItem), it.service = "A" →
        it.computed_amount = none)) ∧
    dictGet (usage_by_service_loop [⟨"A", none, none⟩]).1 "A" = some 0 ∧
    dictGet (usage_by_service_loop [⟨"A", none, none⟩]).2 "A" = some 0 :=
  ⟨⟨by decide, by decide⟩,
    (c6_by_service_invariants [⟨"A", none, none⟩]).2.2.2.2.2.1 "A"
      (by decide) (by decide) (by decide)⟩

/-- C4: the threshold comparison is strict greater-than: the Discord
dispatch is attempted iff `total > threshold`; at `total = threshold`
nothing is dispatched and the function returns `False`, and at
`total = threshold + 0.01` the dispatch is attempted. -/
theorem c4_threshold_strict (threshold total : ℚ) (post : HttpCall) :
    (( send_discord_if_threshold_exceeded threshold total post).2.any
        is_discord_attempt = decide (total > threshold)) ∧
    ( send_discord_if_threshold_exceeded threshold threshold post).1 = false ∧
    ( send_discord_if_threshold_exceeded threshold threshold post).2 = [] ∧
    ( send_discord_if_threshold_exceeded threshold (threshold + 1/100) post).2.any
        is_discord_attempt = true := by
  have hmain : ∀ t : ℚ,
      ( send_discord_if_threshold_exceeded threshold t post).2.any
        is_discord_attempt = decide (t > threshold) := by
    intro t
    unfold send_discord_if_threshold_exceeded
    by_cases h : t > threshold
    · cases hok : ( send_discord_notification post).ok <;>
        simp [h, hok, is_discord_attempt]
    · simp [h]
  refine ⟨hmain total, ?_, ?_, ?_⟩
  · unfold send_discord_if_threshold_exceeded
    simp
  · unfold send_discord_if_threshold_exceeded
    simp
  · rw [hmain (threshold + 1/100)]
    simp only [decide_eq_true_eq]
    linarith

/-- C8: when the total strictly exceeds the threshold, the message handed
to the Discord channel is the line-163 f-string, which contains the total
formatted to exactly two decimal places and the threshold value as
substrings; for threshold 100.0 and total 150.0 the message contains
"150.00" and "100.0". -/
theorem c8_alert_message_content (threshold total : ℚ) (post : HttpCall)
    (h : total > threshold) :
    Event.discord_attempted (alert_message threshold total) ∈
      ( send_discord_if_threshold_exceeded threshold total post).2 ∧
    containsSub (pyFormatFixed2 total) (alert_message threshold total) ∧
    containsSub (pyStrFloat threshold) (alert_message threshold total) ∧
    containsSub "150.00" (alert_message 100 150) ∧
    containsSub "100.0" (alert_message 100 150) := by
  refine ⟨?_, ?_, ?_, ?_, ?_⟩
  · unfold send_discord_if_threshold_exceeded
    cases hok : ( send_discord_notification post).ok <;> simp [h, hok]
  · refine ⟨"ATTENTION! OCI costs of ".data,
      (" USD exceeds " ++ pyStrFloat threshold ++ " USD!").data, ?_⟩
    simp [alert_message, String.data_append]
  · refine ⟨("ATTENTION! OCI costs of " ++ pyFormatFixed2 total ++ " USD exceeds ").data,
      " USD!".data, ?_⟩
    simp [alert_message, String.data_append]
  · exact ⟨"ATTENTION! OCI costs of ".data, " USD exceeds 100.0 USD!".data, by decide⟩
  · exact ⟨"ATTENTION! OCI costs of 150.00 USD exceeds ".data, " USD!".data, by decide⟩

/-- Witness for C8 at threshold 100, total 150 and a successful POST. -/
theorem c8_alert_message_content_witness :
    (150 : ℚ) > 100 ∧
    Event.discord_attempted (alert_message 100 150) ∈
      ( send_discord_if_threshold_exceeded 100 150 (.ok 204)).2 ∧
    containsSub "150.00" (alert_message 100 150) ∧
    containsSub "100.0" (alert_message 100 150) := by
  have h := c8_alert_message_content 100 150 (.ok 204) (by decide)
  exact ⟨by decide, h.1, h.2.2.2.1, h.2.2.2.2⟩

/-- C3: an error of one notification channel is caught inside that
channel's send function and converted into an ok=false result (both send
functions are total and map an exception to
`{"ok": False, "status": "Failed"}`), so under any oracle whose usage
queries succeed the run completes with the n8n POST and the heartbeat
attempted, and with the Discord POST attempted whenever the threshold is
exceeded — regardless of how any channel behaves. -/
theorem c3_channel_isolation (threshold : ℚ) (o : Oracles)
    (items1 items2 : List UsageItem)
    (h1 : o.query_totals = .ok items1) (h2 : o.query_by_service = .ok items2) :
    (∀ e, send_discord_notification (.error e) = ⟨false, .failed⟩) ∧
    (∀ e, send_n8n_notification (.error e) = ⟨false, .failed⟩) ∧
    ∃ evs, main_run threshold o = .ok evs ∧
      Event.n8n_attempted ∈ evs ∧
      Event.heartbeat_attempted ∈ evs ∧
      ((usage_totals_loop items1).1 > threshold →
        Event.discord_attempted
            (alert_message threshold (usage_totals_loop items1).1) ∈ evs) := by
  refine ⟨fun e => rfl, fun e => rfl, ?_⟩
  refine ⟨_, main_run_ok threshold o items1 items2 h1 h2, ?_, ?_, ?_⟩
  · simp [List.mem_append, n8n_attempted_mem]
  · cases hg : o.healthcheck_get <;> simp [hg, List.mem_append]
  · intro hgt
    have hmem : Event.discord_attempted
        (alert_message threshold (usage_totals_loop items1).1) ∈
        ( send_discord_if_threshold_exceeded threshold (usage_totals_loop items1).1
          o.discord_post).2 := by
      unfold send_discord_if_threshold_exceeded
      cases hok : ( send_discord_notification o.discord_post).ok <;> simp [hgt, hok]
    simp [List.mem_append, hmem]

/-- Witness for C3: a concrete oracle where both channels and the
heartbeat fail; the run still completes with both attempts made. -/
theorem c3_channel_isolation_witness :
    ((⟨.ok [⟨"A", some 200, none⟩], .ok [⟨"A", some 200, none⟩], .error "n8n down",
        .error "discord down", .error "hc down"⟩ : Oracles).query_totals
      = .ok [⟨"A", some 200, none⟩]) ∧
    ∃ evs, main_run 100 ⟨.ok [⟨"A", some 200, none⟩], .ok [⟨"A", some 200, none⟩],
        .error "n8n down", .error "discord down", .error "hc down"⟩ = .ok evs ∧
      Event.n8n_attempted ∈ evs ∧
      Event.heartbeat_attempted ∈ evs ∧
      ((usage_totals_loop [⟨"A", some 200, none⟩]).1 > 100 →
        Event.discord_attempted
          (alert_message 100 (usage_totals_loop [⟨"A", some 200, none⟩]).1) ∈ evs) :=
  ⟨rfl, (c3_channel_isolation 100 _ [⟨"A", some 200, none⟩] [⟨"A", some 200, none⟩]
    rfl rfl).2.2⟩

/-- C5: under any oracle whose usage queries succeed — in particular when
every notification channel fails — the run completes (`main` does not
raise) with the heartbeat GET attempted at the end, and a failure of that
GET is caught and logged as `healthcheck_ping_failed` rather than
propagated. -/
theorem c5_heartbeat_always_attempted (threshold : ℚ) (o : Oracles)
    (items1 items2 : List UsageItem)
    (h1 : o.query_totals = .ok items1) (h2 : o.query_by_service = .ok items2) :
    ∃ evs, main_run threshold o = .ok evs ∧
      Event.heartbeat_attempted ∈ evs ∧
      (∀ e, o.healthcheck_get = .error e →
        Event.heartbeat_failed ∈ evs ∧ Event.heartbeat_success ∉ evs) := by
  refine ⟨_, main_run_ok threshold o items1 items2 h1 h2, ?_, ?_⟩
  · cases hg : o.healthcheck_get <;> simp [hg, List.mem_append]
  · intro e hg
    rw [hg]
    constructor
    · simp [List.mem_append]
    · have hn : Event.heartbeat_success ∉
          n8n_events ( send_n8n_notification o.n8n_post) := by
        unfold n8n_events
        cases ( send_n8n_notification o.n8n_post).ok <;> simp
      have hd : Event.heartbeat_success ∉
          ( send_discord_if_threshold_exceeded threshold
            (usage_totals_loop items1).1 o.discord_post).2 := by
        unfold send_discord_if_threshold_exceeded
        by_cases hgt : (usage_totals_loop items1).1 > threshold
        · cases hok : ( send_discord_notification o.discord_post).ok <;>
            simp [hgt, hok]
        · simp [hgt]
      have ht : Event.heartbeat_success ∉
          (if ( send_discord_if_threshold_exceeded threshold
              (usage_totals_loop items1).1 o.discord_post).1 then ([] : List Event)
           else [Event.threshold_not_exceeded_logged]) := by
        split <;> simp
      simp [List.mem_append, List.mem_map, hn, hd, ht]

/-- Witness for C5: with both notification channels and the heartbeat
failing, the run still completes and the heartbeat attempt and failure
log are in the trace. -/
theorem c5_heartbeat_always_attempted_witness :
    ((⟨.ok [], .ok [], .error "x", .error "y", .error "hc"⟩ : Oracles).query_totals
      = .ok []) ∧
    ∃ evs, main_run 100 ⟨.ok [], .ok [], .error "x", .error "y", .error "hc"⟩
        = .ok evs ∧
      Event.heartbeat_attempted ∈ evs ∧
      (∀ e, (⟨.ok [], .ok [], .error "x", .error "y", .error "hc"⟩ :
          Oracles).healthcheck_get = .error e →
        Event.heartbeat_failed ∈ evs ∧ Event.heartbeat_success ∉ evs) :=
  ⟨rfl, c5_heartbeat_always_attempted 100 _ [] [] rfl rfl⟩

/-- C7: an error raised by the usage query propagates uncaught out of
`main`: the run result is that error and no event trace is produced — no
per-service logging, no notification attempt, no heartbeat; the same
holds when the grouped query fails after the ungrouped one succeeded. -/
theorem c7_query_error_propagates (threshold : ℚ) (o : Oracles) (e : String) :
    (o.query_totals = .error e →
      main_run threshold o = .error e ∧ ∀ evs, main_run threshold o ≠ .ok evs) ∧
    (∀ items1, o.query_totals = .ok items1 → o.query_by_service = .error e →
      main_run threshold o = .error e ∧ ∀ evs, main_run threshold o ≠ .ok evs) := by
  constructor
  · intro h
    have hm : main_run threshold o = .error e := by
      simp [main_run, get_usage_totals, h]
    exact ⟨hm, fun evs hok => by rw [hm] at hok; exact Except.noConfusion hok⟩
  · intro items1 h1 h2
    have hm : main_run threshold o = .error e := by
      simp [main_run, get_usage_totals, get_usage_totals_by_service, h1, h2]
    exact ⟨hm, fun evs hok => by rw [hm] at hok; exact Except.noConfusion hok⟩

/-- Witness for C7 at a concrete failing query oracle. -/
theorem c7_query_error_propagates_witness :
    ((⟨.error "boom", .ok [], .ok 200, .ok 200, .ok 200⟩ : Oracles).query_totals
      = .error "boom") ∧
    main_run 100 ⟨.error "boom", .ok [], .ok 200, .ok 200, .ok 200⟩
      = .error "boom" :=
  ⟨rfl, ((c7_query_error_propagates 100 _ "boom").1 rfl).1⟩

/-- C10: `main` logs the `threshold_not_exceeded` event exactly when
`send_discord_if_threshold_exceeded` returns `False`, and that function
returns `False` exactly when either the total does not exceed the
threshold, or it does but the Discord delivery reports failure — so the
event is also emitted on a failed alert delivery above the threshold. -/
theorem c10_not_exceeded_log (threshold total : ℚ) (post : HttpCall)
    (o : Oracles) (items1 items2 : List UsageItem)
    (h1 : o.query_totals = .ok items1) (h2 : o.query_by_service = .ok items2) :
    (( send_discord_if_threshold_exceeded threshold total post).1 = false ↔
      (¬ total > threshold ∨ (total > threshold ∧
        ( send_discord_notification post).ok = false))) ∧
    ∀ evs, main_run threshold o = .ok evs →
      (Event.threshold_not_exceeded_logged ∈ evs ↔
        ( send_discord_if_threshold_exceeded threshold
          (usage_totals_loop items1).1 o.discord_post).1 = false) := by
  constructor
  · unfold send_discord_if_threshold_exceeded
    by_cases h : total > threshold
    · cases hok : ( send_discord_notification post).ok <;> simp [h, hok]
    · simp [h]
  · intro evs hevs
    rw [main_run_ok threshold o items1 items2 h1 h2] at hevs
    injection hevs with hevs
    subst hevs
    have hl : Event.threshold_not_exceeded_logged ∉
        (Event.usage_totals_logged ::
          (dictKeys (usage_by_service_loop items2).1).map
            Event.service_usage_logged) := by
      simp [List.mem_map]
    have hhb : Event.threshold_not_exceeded_logged ∉
        (match o.healthcheck_get with
         | .ok _ => [Event.heartbeat_attempted, Event.heartbeat_success]
         | .error _ => [Event.heartbeat_attempted, Event.heartbeat_failed]) := by
      cases o.healthcheck_get <;> simp
    by_cases hd : ( send_discord_if_threshold_exceeded threshold
        (usage_totals_loop items1).1 o.discord_post).1 = true
    · simp [List.mem_append, hl, hhb, hd, thresh_log_not_in_n8n,
        thresh_log_not_in_disc]
    · simp [List.mem_append, hl, hhb, hd, thresh_log_not_in_n8n,
        thresh_log_not_in_disc]

/-- Witness for C10: with the total above the threshold and the Discord
POST failing, the dispatch function reports `False`. -/
theorem c10_not_exceeded_log_witness :
    ((⟨.ok [⟨"A", some 200, none⟩], .ok [], .ok 200, .error "down", .ok 200⟩ :
        Oracles).query_totals = .ok [⟨"A", some 200, none⟩]) ∧
    (( send_discord_if_threshold_exceeded 100 200 (.error "down")).1 = false ↔
      (¬ (200 : ℚ) > 100 ∨ ((200 : ℚ) > 100 ∧
        ( send_discord_notification (.error "down")).ok = false))) :=
  ⟨rfl, (c10_not_exceeded_log 100 200 (.error "down")
    ⟨.ok [⟨"A", some 200, none⟩], .ok [], .ok 200, .error "down", .ok 200⟩
    [⟨"A", some 200, none⟩] [] rfl rfl).1⟩

/-- C9: each invocation rebuilds the query range from the wall-clock
date `today` read at call start: the request (grouped or ungrouped)
starts at the first day of the current month and ends, exclusively, at
tomorrow; for a valid `today` the start is a valid date not after
`today`, and `today` is strictly before the exclusive end. -/
theorem c9_billing_period (tenant : String) (today : PyDate) (grouped : Bool)
    (h : ValidDate today) :
    (buildUsageRequest tenant today grouped).time_usage_started =
      dateStamp ⟨today.year, today.month, 1⟩ ∧
    (buildUsageRequest tenant today grouped).time_usage_ended =
      dateStamp (nextDay today) ∧
    (buildUsageRequest tenant today grouped).granularity = "DAILY" ∧
    (buildUsageRequest tenant today grouped).query_type = "COST" ∧
    ValidDate (start_date today) ∧
    dateLeb (start_date today) today = true ∧
    dateLtb today (end_date today) = true := by
  obtain ⟨y, m, d⟩ := today
  unfold ValidDate at h
  obtain ⟨hm1, hm2, hd1, hd2⟩ := h
  dsimp only at hm1 hm2 hd1 hd2
  refine ⟨rfl, rfl, rfl, rfl, ?_, ?_, ?_⟩
  · exact ⟨hm1, hm2, Nat.le_refl 1, daysInMonth_pos y m⟩
  · unfold dateLeb dateLtb start_date
    simp only [Bool.or_eq_true, decide_eq_true_eq, PyDate.mk.injEq, true_and,
      and_true]
    omega
  · unfold end_date nextDay dateLtb
    split
    · simp only [decide_eq_true_eq, true_and, and_true]
      omega
    · split
      · simp only [decide_eq_true_eq, true_and, and_true]
        omega
      · simp only [decide_eq_true_eq, true_and, and_true]
        omega

/-- Witness for C9 at a concrete date. -/
theorem c9_billing_period_witness :
    ValidDate ⟨2026, 10, 12⟩ ∧
    (buildUsageRequest "tenant" ⟨2026, 10, 12⟩ false).time_usage_started =
      dateStamp ⟨2026, 10, 1⟩ ∧
    dateLtb ⟨2026, 10, 12⟩ (end_date ⟨2026, 10, 12⟩) = true :=
  ⟨by decide,
    (c9_billing_period "tenant" ⟨2026, 10, 12⟩ false (by decide)).1,
    (c9_billing_period "tenant" ⟨2026, 10, 12⟩ false (by decide)).2.2.2.2.2.2⟩
